/-
Verification of the absent-metrics-operator core logic.

This file shallowly embeds the derivation-and-reconciliation engine of the
operator: the promql metric-name extractor (`metricNameExtractor.Visit`),
the absence-rule synthesizer (`parseAlertRule`, `parseRuleGroups`), the
rule-group merger (`mergeAbsenceRuleGroups`), the orphan cleanup
(`cleanUpOrphanedAbsenceAlertRules`) and the write decision of
`updateAbsenceAlertRules`, all translated from
`controllers/absence_prometheusrule.go` and
`internal/controller/alert_rule.go` (with the older/variant copies of the
controller file embedded separately where their behaviour differs).

Go strings are modelled as Lean `String` (the sources only ever handle
ASCII), Go maps used as string-keyed dictionaries are modelled as
association lists with first-match lookup, and Go slices as `List`.
External collaborators (the promql parser of
github.com/prometheus/prometheus and the Kubernetes client) are modelled
as explicit parameters or as action values returned by the decision
functions.
-/
import Mathlib

namespace AbsentMetrics

/-! ## Go string primitives -/

/-- Go `strings.Contains s sub`: `sub` occurs as a contiguous substring of
`s`. Modelled on the underlying character lists. -/
def goContains (s sub : String) : Bool :=
  decide (sub.data <:+: s.data)

/-- Splitting loop for `goSplit`: cut the character list at every
non-overlapping occurrence of the (non-empty) separator, scanning left to
right. The fuel argument starts at the input length and dominates it, so
the `0` case is unreachable; it makes the recursion structural. -/
def goSplitAux (sep : List Char) : Nat → List Char → List (List Char)
  | _, [] => [[]]
  | 0, l => [l]
  | fuel + 1, c :: cs =>
    if sep.isPrefixOf (c :: cs) then
      [] :: goSplitAux sep fuel ((c :: cs).drop sep.length)
    else
      match goSplitAux sep fuel cs with
      | [] => [[c]]
      | h :: t => (c :: h) :: t

/-- Go `strings.Split s sep` for a non-empty separator (the sources only
split on `"_"`, `":"` and `"/"`). -/
def goSplit (s sep : String) : List String :=
  if sep.data = [] then [s]
  else (goSplitAux sep.data s.data.length s.data).map (fun l => ⟨l⟩)

/-- Go `strings.ToLower`, character-wise (the sources only handle
ASCII). -/
def goToLower (s : String) : String :=
  ⟨s.data.map Char.toLower⟩

/-- The word-separator test of Go `strings.Title` (its `isSeparator`):
ASCII alphanumerics and underscore are not separators, everything else
is. The sources only feed ASCII tokens to it. -/
def goIsSeparator (c : Char) : Bool :=
  !(c.isAlphanum || c = '_')

/-- Go `strings.Title`: title-case (here: upper-case) every character
that follows a separator, the scan starting as if after a separator. -/
def goTitleAux : Char → List Char → List Char
  | _, [] => []
  | prev, c :: cs =>
    (if goIsSeparator prev then c.toUpper else c) :: goTitleAux c cs

def goTitle (s : String) : String :=
  ⟨goTitleAux ' ' s.data⟩

/-- First-match lookup in a Go string map modelled as an association
list. -/
def lookup (m : List (String × String)) (k : String) : Option String :=
  (m.find? (fun p => p.1 = k)).map (·.2)

/-! ## Data model

`monitoringv1.Rule` and `monitoringv1.RuleGroup`, restricted to the fields
the operator reads or writes. `Rule.Expr` is an `intstr.IntOrString` in Go
but the operator only ever treats it as a string (`in.Expr.String()`). -/

structure Rule where
  alert : String
  expr : String
  forDuration : String
  labels : List (String × String)
  annotations : List (String × String)
deriving DecidableEq, Repr

structure RuleGroup where
  name : String
  rules : List Rule
deriving DecidableEq, Repr

/-! ## Expression metric extractor

The promql AST (external library `github.com/prometheus/prometheus/promql`)
is modelled as a closed inductive covering the node kinds the visitor
distinguishes: the two selector kinds that carry a series name, and the
remaining kinds which `Visit` passes through. -/

inductive PromExpr where
  | vector (name : String)
  | matrix (name : String)
  | call (fn : String) (args : List PromExpr)
  | binary (op : String) (lhs rhs : PromExpr)
  | paren (e : PromExpr)
  | unary (op : String) (e : PromExpr)
  | aggregate (op : String) (e : PromExpr)
  | number (v : Int)

mutual

/-- All series names referenced by selector nodes of the tree, in walk
order (with duplicates). `promql.Walk` visits every node; only
`VectorSelector` and `MatrixSelector` contribute a name. -/
def collectNames : PromExpr → List String
  | .vector n => [n]
  | .matrix n => [n]
  | .call _ args => collectNamesList args
  | .binary _ lhs rhs => collectNames lhs ++ collectNames rhs
  | .paren e => collectNames e
  | .unary _ e => collectNames e
  | .aggregate _ e => collectNames e
  | .number _ => []

/-- Companion of `collectNames` for argument lists of calls. -/
def collectNamesList : List PromExpr → List String
  | [] => []
  | e :: es => collectNames e ++ collectNamesList es

end

/-- The exclusion test of `metricNameExtractor.Visit`
(`internal/controller/alert_rule.go` lines 50-59): a discovered series
name is kept unless the original expression text contains the substring
`absent(` immediately followed by the name (Go:
`strings.Contains(mex.expr, fmt.Sprintf("absent(%s", name))`), or the
name is the literal `up`. -/
def keepName (expr name : String) : Bool :=
  !(goContains expr ("absent(" ++ name)) && !(name = "up")

/-- The set of metric names collected by walking the parsed expression
with `metricNameExtractor` — the keys of `mex.found`, listed in first-seen
walk order. Go stores them in a map, so the list order is canonical here
while the Go iteration order is unspecified (see `absenceRulesFor`). -/
def mexFoundList (expr : String) (node : PromExpr) : List String :=
  ((collectNames node).filter (fun n => keepName expr n)).dedup

/-! ## Absence rule synthesizer (`internal/controller/alert_rule.go`) -/

/-- The word list of the naming algorithm (`parseAlertRule` lines
136-141): start from `[absent, tier, service]`, split the metric name on
`_`, split each piece further on `:`, appending every sub-token in
order. -/
def nameWords (tier service metric : String) : List String :=
  ["absent", tier, service] ++ ((goSplit metric "_").map (fun v => goSplit v ":")).flatten

/-- The stutter-avoidance loop (`parseAlertRule` lines 142-151): lower-case
each word; emit its title-cased form unless it equals the previously
emitted (lower-cased) word. `prev` starts out as the empty string. -/
def stutterConcat (prev : String) : List String → String
  | [] => ""
  | v :: rest =>
    let l := goToLower v
    if prev = l then stutterConcat prev rest
    else goTitle l ++ stutterConcat l rest

/-- The generated alert name for one metric (`parseAlertRule` lines
134-151). -/
def buildAlertName (tier service metric : String) : String :=
  stutterConcat "" (nameWords tier service metric)

/-- Label carry-over (`parseAlertRule` lines 117-125): a label defined on
the original rule overrides the default unless its value contains the
templating marker `$labels`. -/
def carryOverLabel (orig : List (String × String)) (key dflt : String) : String :=
  match lookup orig key with
  | some v => if goContains v "$labels" then dflt else v
  | none => dflt

/-- One generated absence alert rule for one metric (`parseAlertRule`
lines 153-164), given the already-resolved tier and service. -/
def mkAbsenceRule (tier service metric : String) : Rule :=
  { alert := buildAlertName tier service metric
    expr := "absent(" ++ metric ++ ")"
    forDuration := "10m"
    labels := [("tier", tier), ("service", service), ("severity", "info")]
    annotations :=
      [("summary", "missing " ++ metric),
       ("description", "The metric '" ++ metric ++ "' is missing")] }

/-- The output slice of `parseAlertRule` for a given enumeration of the
extracted metric set. Go builds it by ranging over the map `mex.found`,
whose iteration order the Go language leaves unspecified, so the
enumeration order is an explicit parameter here; `parseAlertRule` below
instantiates it with the canonical walk order. -/
def absenceRulesFor (tier service : String) (found : List String) : List Rule :=
  found.map (mkAbsenceRule tier service)

/-- Function `parseAlertRule` (`internal/controller/alert_rule.go` lines 101-168):
parse the rule expression with the external promql parser `parseExpr`
(failure is wrapped in the Go error message), walk it with
`metricNameExtractor`, return no rules when nothing was found, otherwise
resolve tier and service by carry-over and emit one absence rule per
extracted metric. -/
def parseAlertRule (parseExpr : String → Except String PromExpr)
    (tier service : String) (r : Rule) : Except String (List Rule) :=
  match parseExpr r.expr with
  | .error e =>
      .error ("could not parse rule expression: " ++ e ++ ": " ++ r.expr)
  | .ok node =>
      let found := mexFoundList r.expr node
      if found = [] then .ok []
      else
        let tier := carryOverLabel r.labels "tier" tier
        let service := carryOverLabel r.labels "service" service
        .ok (absenceRulesFor tier service found)

/-- The inner loop of `parseRuleGroups` (lines 75-85): concatenate the
absence rules of all rules of one group, aborting on the first parse
error. -/
def parseGroupRules (parseExpr : String → Except String PromExpr)
    (tier service : String) : List Rule → Except String (List Rule)
  | [] => .ok []
  | r :: rest => do
      let rules ← parseAlertRule parseExpr tier service r
      let restRules ← parseGroupRules parseExpr tier service rest
      return rules ++ restRules

/-- Function `parseRuleGroups` (`internal/controller/alert_rule.go` lines 72-95):
map every source group to its absence-rule group named
`promRuleName/groupName`, dropping groups that produced no rules; the
first parse error aborts the whole computation. -/
def parseRuleGroups (parseExpr : String → Except String PromExpr)
    (promRuleName defaultTier defaultService : String) :
    List RuleGroup → Except String (List RuleGroup)
  | [] => .ok []
  | g :: rest => do
      let absentRules ← parseGroupRules parseExpr defaultTier defaultService g.rules
      let out ← parseRuleGroups parseExpr promRuleName defaultTier defaultService rest
      if absentRules = [] then
        return out
      else
        return ⟨promRuleName ++ "/" ++ g.name, absentRules⟩ :: out

/-! ## Companion resource naming (`controllers/absence_prometheusrule.go`
and the two variant copies of the controller file) -/

def absencePromRuleNameSuffix : String := "-absent-metric-alert-rules"

/-- Function `AbsencePrometheusRuleName` of `controllers/absence_prometheusrule.go`
lines 37-39: `fmt.Sprintf("%s%s", promServer, absencePromRuleNameSuffix)`. -/
def AbsencePrometheusRuleName (promServer : String) : String :=
  promServer ++ absencePromRuleNameSuffix

/-- Function `AbsentPrometheusRuleName` of the older controller variant
(`src/unnamed/part_002` lines 30-32):
`fmt.Sprintf("%s-absent-metric-alert-rules", prometheusServer)`. -/
def AbsentPrometheusRuleName (prometheusServer : String) : String :=
  prometheusServer ++ "-absent-metric-alert-rules"

/-- Function `AbsencePrometheusRuleName` of the template-based controller variant
(`src/unnamed/part_001` lines 39-55) renders a caller-supplied
`text/template` string against the JSON form of the PrometheusRule and
returns the rendered text (or `default-absent-metrics` when execution
fails). Template rendering is the external `text/template` library; it is
modelled here on the fragment the proofs use: a template that contains no
`\x7b\x7b` action delimiter parses and executes successfully and renders
to its own literal text, independently of the PrometheusRule object, so
the function returns the template string unchanged (`none` stands for
templates outside the modelled fragment). -/
def templateAbsencePrometheusRuleName (prometheusRuleString : String) :
    Option String :=
  if goContains prometheusRuleString "\x7b\x7b" then none
  else some prometheusRuleString

/-! ## Rule group merger (`mergeAbsenceRuleGroups`,
`controllers/absence_prometheusrule.go` lines 320-343) -/

/-- The first loop of `mergeAbsenceRuleGroups`: walk the existing groups,
substituting the first new group of the same name when there is one
(recording that name in `added`), otherwise carrying the existing group
over. Returns the walked list and the final `added` set (as a list of
names). -/
def mergePass (news : List RuleGroup) :
    List RuleGroup → List String → (List RuleGroup × List String)
  | [], added => ([], added)
  | oldG :: rest, added =>
    match news.find? (fun newG => newG.name = oldG.name) with
    | some newG =>
      let r := mergePass news rest (newG.name :: added)
      (newG :: r.1, r.2)
    | none =>
      let r := mergePass news rest added
      (oldG :: r.1, r.2)

/-- Function `mergeAbsenceRuleGroups`: after the first loop, append every new group
whose name was not recorded in `added`. -/
def mergeAbsenceRuleGroups (existing news : List RuleGroup) : List RuleGroup :=
  let p := mergePass news existing []
  p.1 ++ news.filter (fun g => !(p.2.contains g.name))

/-- The group sort applied before every create/update
(`sort.SliceStable` by group name, `controllers/absence_prometheusrule.go`
lines 77-80 and 93-96). `List.mergeSort` is stable, like
`sort.SliceStable`. -/
def sortGroups (groups : List RuleGroup) : List RuleGroup :=
  groups.mergeSort (fun a b => a.name ≤ b.name)

/-! ## Orphan cleanup (`cleanUpOrphanedAbsenceAlertRules`,
`controllers/absence_prometheusrule.go` lines 123-180) -/

/-- Modelled from the spec: `promRulefromAbsenceRuleGroupName` is called
by `controllers/absence_prometheusrule.go` but its definition is not among
the provided sources. Per the spec (4.5), the originating source name of a
generated group is "the name's prefix, split on the `/` separator", the
group-name format being `promRuleName/originalGroupName`; a name not of
that two-part shape yields the empty string, which the callers treat as
"no originating source". -/
def promRulefromAbsenceRuleGroupName (name : String) : String :=
  match goSplit name "/" with
  | [p, _] => p
  | _ => ""

/-- The write decision a cleanup pass reaches. -/
inductive CleanupAction where
  | noop
  | delete
  | update (groups : List RuleGroup)
deriving DecidableEq, Repr

/-- Steps 2-3 of `cleanUpOrphanedAbsenceAlertRules` (lines 158-180): keep
every group not generated for `promRuleName`; if nothing changed, do
nothing; otherwise delete the companion resource when no group remains,
else update it with the remaining groups. -/
def cleanUpOrphanedDecision (promRuleName : String)
    (groups : List RuleGroup) : CleanupAction :=
  let kept := groups.filter (fun g =>
    let n := promRulefromAbsenceRuleGroupName g.name
    !(n ≠ "" ∧ n = promRuleName))
  if kept = groups then .noop
  else if kept = [] then .delete
  else .update kept

/-! ## Reconciliation write decision (`updateAbsenceAlertRules`,
`controllers/absence_prometheusrule.go` lines 225-315) -/

/-- The outcome of one `updateAbsenceAlertRules` pass against the store:
either a failure, or exactly one of no write, a cleanup write (delete or
update issued by the delegated `cleanUpOrphanedAbsenceAlertRules`), an
update or a create. -/
inductive ReconcileAction where
  | failed (msg : String)
  | noop
  | cleanupDelete
  | cleanupUpdate (groups : List RuleGroup)
  | update (groups : List RuleGroup)
  | create (groups : List RuleGroup)
deriving DecidableEq, Repr

/-- Function `updateAbsenceAlertRules` of `controllers/absence_prometheusrule.go`,
as a pure decision function. Inputs are the source resource's labels,
name and spec groups, the default tier/service that step 3 resolved
(step 3 only mutates labels on the in-memory companion object and issues
no write, so its label machinery is abstracted into the two defaults),
and the fetch result for the companion resource (`some` existing groups,
or `none` for NotFound; a transient fetch failure aborts the pass before
this function's logic and is not modelled). Step 5 delegates to
`cleanUpOrphanedAbsenceAlertRules`, which re-fetches the same companion
by its deterministic name; its decision is inlined on the same groups.
Steps 1, 4, 5 and 7 are lines 226-232, 271-276, 282-288 and 303-314. -/
def updateAbsenceAlertRules (parseExpr : String → Except String PromExpr)
    (promRuleLabels : List (String × String)) (promRuleName : String)
    (defaultTier defaultService : String)
    (existing : Option (List RuleGroup)) (specGroups : List RuleGroup) :
    ReconcileAction :=
  match lookup promRuleLabels "prometheus" with
  | none => .failed "no 'prometheus' label found"
  | some _promServer =>
    match parseRuleGroups parseExpr promRuleName defaultTier defaultService specGroups with
    | .error e => .failed e
    | .ok absenceRuleGroups =>
      if absenceRuleGroups = [] then
        match existing with
        | some ex =>
          match cleanUpOrphanedDecision promRuleName ex with
          | .noop => .noop
          | .delete => .cleanupDelete
          | .update kept => .cleanupUpdate kept
        | none => .noop
      else
        match existing with
        | some ex =>
          let result := mergeAbsenceRuleGroups ex absenceRuleGroups
          if ex = result then .noop
          else .update (sortGroups result)
        | none => .create (sortGroups absenceRuleGroups)

/-- Step 1 of `updateAbsenceAlertRules` in the variant controller file
(`src/unnamed/part_001` lines 272-279): a missing `prometheus` label is
not an error there; the pass proceeds with the fallback identifier
`default-prometheus`. -/
def resolvePromServerWithFallback (promRuleLabels : List (String × String)) : String :=
  match lookup promRuleLabels "prometheus" with
  | some promServer => promServer
  | none => "default-prometheus"

/-! ## Auxiliary predicates and sample inputs -/

/-- Whether an `Except` carries an error. -/
def exceptIsError : Except String PromExpr → Bool
  | .error _ => true
  | .ok _ => false

/-- The exclusion rule as the spec words it: the expression text "already
wraps that exact name in an absence check", i.e. contains the absence call
applied to precisely that name. Stated for comparison with the
implemented check `keepName`, which matches `absent(` followed by the
name without requiring the name to end there. -/
def wrapsExactName (expr name : String) : Bool :=
  goContains expr ("absent(" ++ name ++ ")")

/-- A concrete parse oracle standing in for the external promql parser on
the sample expressions evaluated below; it maps each sample expression to
its syntax tree and reports a parse error on anything else (as the real
parser does on the malformed sample `strange(`). -/
def peSample : String → Except String PromExpr := fun s =>
  if s = "foo_bar > 0" then
    .ok (.binary ">" (.vector "foo_bar") (.number 0))
  else if s = "absent(foo_bar) or foo_bar > 0" then
    .ok (.binary "or" (.call "absent" [.vector "foo_bar"])
      (.binary ">" (.vector "foo_bar") (.number 0)))
  else if s = "up" then
    .ok (.vector "up")
  else if s = "absent(foo_bar) or foo > 0" then
    .ok (.binary "or" (.call "absent" [.vector "foo_bar"])
      (.binary ">" (.vector "foo") (.number 0)))
  else if s = "network:tis_a_metric:rate5m > 0" then
    .ok (.binary ">" (.vector "network:tis_a_metric:rate5m") (.number 0))
  else if s = "a_one > 0 or b_two > 0" then
    .ok (.binary "or" (.binary ">" (.vector "a_one") (.number 0))
      (.binary ">" (.vector "b_two") (.number 0)))
  else .error "parse error"

/-- The spec's end-to-end sample source rule:
`expr: foo_bar > 0, labels: tier=net, service=x`. -/
def ruleGood : Rule :=
  { alert := "ImportantAlert", expr := "foo_bar > 0", forDuration := "5m"
    labels := [("tier", "net"), ("service", "x")], annotations := [] }

/-- A source rule whose expression is syntactically invalid. -/
def ruleBad : Rule :=
  { alert := "BadAlert", expr := "strange(", forDuration := "5m"
    labels := [], annotations := [] }

/-- A source rule whose expression only references a metric that is
already guarded by `absent(...)`, so synthesis yields nothing for it. -/
def ruleGuarded : Rule :=
  { alert := "GuardedAlert", expr := "absent(foo_bar) or foo_bar > 0"
    forDuration := "5m", labels := [], annotations := [] }

/-- The naming sample of the spec: a source rule over the metric
`network:tis_a_metric:rate5m` with literal classification labels
`tier=network`, `service=core`. -/
def ruleTis : Rule :=
  { alert := "TisAlert", expr := "network:tis_a_metric:rate5m > 0"
    forDuration := "5m"
    labels := [("tier", "network"), ("service", "core")], annotations := [] }

/-- Sample groups for the merge example: existing `[A, B]`, new `[B', C]`. -/
def gA : RuleGroup := ⟨"other/alpha", [mkAbsenceRule "os" "svc" "metric_a"]⟩

def gB : RuleGroup := ⟨"myrule/beta", [mkAbsenceRule "os" "svc" "metric_b"]⟩

def gB2 : RuleGroup := ⟨"myrule/beta", [mkAbsenceRule "os" "svc" "metric_b2"]⟩

def gC : RuleGroup := ⟨"myrule/gamma", [mkAbsenceRule "os" "svc" "metric_c"]⟩

/-- A companion state holding one group generated for the source
`myrule`, used to exercise the cleanup paths. -/
def exOrphan : List RuleGroup :=
  [⟨"myrule/g", [mkAbsenceRule "os" "svc" "metric_old"]⟩]

/-- A source spec whose only rule is `ruleGuarded`: synthesis yields no
groups for it. -/
def sgGuarded : List RuleGroup := [⟨"g", [ruleGuarded]⟩]

/-- The spec's label-inheritance sample: literal `tier=storage` on the
rule. -/
def ruleStorage : Rule :=
  { alert := "StorageAlert", expr := "foo_bar > 0", forDuration := "5m"
    labels := [("tier", "storage"), ("service", "x")], annotations := [] }

/-- The spec's label-inheritance sample: templated `tier=$labels.tier` on
the rule. -/
def ruleTemplated : Rule :=
  { alert := "TemplatedAlert", expr := "foo_bar > 0", forDuration := "5m"
    labels := [("tier", "$labels.tier"), ("service", "x")], annotations := [] }

/-! ## Theorems -/

theorem mergePass_fst (news e : List RuleGroup) :
    ∀ a : List String,
      (mergePass news e a).1 =
        e.map (fun o => ((news.find? (fun g => g.name = o.name)).getD o)) := by
  induction e with
  | nil => intro a; rfl
  | cons o rest ih =>
    intro a
    unfold mergePass
    cases h : news.find? (fun g => g.name = o.name) with
    | none => simp [h, ih]
    | some newG => simp [h, ih]

theorem mergePass_snd_mem (news e : List RuleGroup) :
    ∀ (a : List String) (x : String),
      x ∈ (mergePass news e a).2 ↔
        (∃ o ∈ e, o.name = x ∧
          (news.find? (fun g => g.name = o.name)).isSome) ∨ x ∈ a := by
  induction e with
  | nil => intro a x; simp [mergePass]
  | cons o rest ih =>
    intro a x
    unfold mergePass
    cases h : news.find? (fun g => g.name = o.name) with
    | none =>
      simp only [h]
      rw [ih]
      constructor
      · rintro (⟨o', ho', hx, hsome⟩ | ha)
        · exact Or.inl ⟨o', List.mem_cons_of_mem o ho', hx, hsome⟩
        · exact Or.inr ha
      · rintro (⟨o', ho', hx, hsome⟩ | ha)
        · rcases List.mem_cons.mp ho' with rfl | ho'
          · rw [h] at hsome
            simp at hsome
          · exact Or.inl ⟨o', ho', hx, hsome⟩
        · exact Or.inr ha
    | some newG =>
      have hname : newG.name = o.name := by
        have := List.find?_some h
        simpa using this
      simp only [h]
      rw [ih]
      simp only [List.mem_cons]
      constructor
      · rintro (⟨o', ho', hx, hsome⟩ | hx | ha)
        · exact Or.inl ⟨o', Or.inr ho', hx, hsome⟩
        · exact Or.inl ⟨o, Or.inl rfl, (hx.trans hname).symm, by rw [h]; rfl⟩
        · exact Or.inr ha
      · rintro (⟨o', rfl | ho', hx, hsome⟩ | ha)
        · exact Or.inr (Or.inl (hname.trans hx).symm)
        · exact Or.inl ⟨o', ho', hx, hsome⟩
        · exact Or.inr (Or.inr ha)

/-- C5: `mergeAbsenceRuleGroups` substitutes, for each existing group,
the first new group of the same name (wholesale), carries every other
existing group over unchanged, and appends the unconsumed new groups in
their relative order; in particular existing `[A, B]` merged with new
`[B', C]` yields `[A, B', C]`. -/
theorem claim_C5_theorem :
    (∀ existing news : List RuleGroup,
      mergeAbsenceRuleGroups existing news =
        existing.map (fun o => ((news.find? (fun g => g.name = o.name)).getD o))
          ++ news.filter (fun g => !(existing.any (fun o => o.name = g.name))))
    ∧ mergeAbsenceRuleGroups [gA, gB] [gB2, gC] = [gA, gB2, gC] := by
  constructor
  · intro e n
    show (mergePass n e []).1
        ++ n.filter (fun g => !((mergePass n e []).2.contains g.name)) = _
    have h1 := mergePass_fst n e []
    have h2 : ∀ g ∈ n,
        ((mergePass n e []).2.contains g.name) =
          e.any (fun o => o.name = g.name) := by
      intro g hg
      rw [Bool.eq_iff_iff]
      constructor
      · intro hc
        have hmem : g.name ∈ (mergePass n e []).2 := by
          simpa using hc
        rcases (mergePass_snd_mem n e [] g.name).mp hmem with
          (⟨o, ho, honame, _⟩ | hfalse)
        · simp only [List.any_eq_true]
          exact ⟨o, ho, by simp [honame]⟩
        · simp at hfalse
      · intro ha
        rcases (by simpa using ha : ∃ o ∈ e, o.name = g.name) with
          ⟨o, ho, honame⟩
        have hsome : (n.find? (fun g' => g'.name = o.name)).isSome := by
          rw [List.find?_isSome]
          exact ⟨g, hg, by simp [honame]⟩
        have : g.name ∈ (mergePass n e []).2 :=
          (mergePass_snd_mem n e [] g.name).mpr (Or.inl ⟨o, ho, honame, hsome⟩)
        simpa using this
    rw [h1]
    congr 1
    apply List.filter_congr
    intro g hg
    rw [h2 g hg]
  · decide

/-- C3 counterexample: the code generates the alert name
`AbsentNetworkCoreNetworkTisAMetricRate5m` for the metric
`network:tis_a_metric:rate5m` with classification `(network, core)` — not
`AbsentNetworkCoreTisAMetricRate5m` as claimed. The second `network` word
is not skipped because the immediately preceding emitted word is `core`;
the stutter rule only collapses adjacent duplicates. -/
theorem claim_C3_counterexample :
    parseAlertRule peSample "default-tier" "default-svc" ruleTis
      = .ok [mkAbsenceRule "network" "core" "network:tis_a_metric:rate5m"]
    ∧ (mkAbsenceRule "network" "core" "network:tis_a_metric:rate5m").alert
      = "AbsentNetworkCoreNetworkTisAMetricRate5m"
    ∧ "AbsentNetworkCoreNetworkTisAMetricRate5m"
      ≠ "AbsentNetworkCoreTisAMetricRate5m" := by
  exact ⟨by rfl, by decide, by decide⟩

/-- C3 amended: for the metric `network:tis_a_metric:rate5m` with
classification `(network, core)` the word list is
`[absent, network, core, network, tis, a, metric, rate5m]` as the claim
says, but the generated alert name is
`AbsentNetworkCoreNetworkTisAMetricRate5m`: the stutter rule compares a
word only with the immediately preceding emitted word, and the duplicate
`network` is separated from the first by `core`, so it is emitted. A
duplicate that is adjacent does collapse, as for
`limes_successful_scrapes:rate5m` with classification `(os, limes)`. -/
theorem claim_C3_theorem :
    nameWords "network" "core" "network:tis_a_metric:rate5m"
      = ["absent", "network", "core", "network", "tis", "a", "metric", "rate5m"]
    ∧ buildAlertName "network" "core" "network:tis_a_metric:rate5m"
      = "AbsentNetworkCoreNetworkTisAMetricRate5m"
    ∧ buildAlertName "os" "limes" "limes_successful_scrapes:rate5m"
      = "AbsentOsLimesSuccessfulScrapesRate5m" := by
  exact ⟨by decide, by decide, by decide⟩

/-- C4 counterexample: for the expression `absent(foo_bar) or foo > 0`,
the name `foo` is referenced, is not wrapped in an absence check (the
text contains no `absent(foo)`), and is not `up`, yet the extractor
returns the empty set: the implemented exclusion matches the substring
`absent(foo` — the prefix of `absent(foo_bar)` — so the claim's "skips
exactly when the text wraps that exact name" is false. -/
theorem claim_C4_counterexample :
    "foo" ∈ collectNames (.binary "or" (.call "absent" [.vector "foo_bar"])
        (.binary ">" (.vector "foo") (.number 0)))
    ∧ wrapsExactName "absent(foo_bar) or foo > 0" "foo" = false
    ∧ "foo" ≠ "up"
    ∧ mexFoundList "absent(foo_bar) or foo > 0"
        (.binary "or" (.call "absent" [.vector "foo_bar"])
          (.binary ">" (.vector "foo") (.number 0))) = [] := by
  exact ⟨by decide, by decide, by decide, by decide⟩

/-- C4 amended: the extractor returns the distinct series names referenced
by the parsed expression, skipping a name exactly when the original
expression text contains `absent(` immediately followed by that name
(hence also when only a textual extension of the name is wrapped), and
always skipping the literal `up`; on the claim's three samples it returns
the empty set for `absent(foo_bar) or foo_bar > 0`, `{foo_bar}` for
`foo_bar > 0` and the empty set for `up`. -/
theorem claim_C4_theorem :
    (∀ (expr : String) (node : PromExpr) (name : String),
      name ∈ mexFoundList expr node ↔
        name ∈ collectNames node
          ∧ goContains expr ("absent(" ++ name) = false ∧ name ≠ "up")
    ∧ (∀ (expr : String) (node : PromExpr), (mexFoundList expr node).Nodup)
    ∧ mexFoundList "absent(foo_bar) or foo_bar > 0"
        (.binary "or" (.call "absent" [.vector "foo_bar"])
          (.binary ">" (.vector "foo_bar") (.number 0))) = []
    ∧ mexFoundList "foo_bar > 0"
        (.binary ">" (.vector "foo_bar") (.number 0)) = ["foo_bar"]
    ∧ mexFoundList "up" (.vector "up") = [] := by
  refine ⟨?_, fun expr node => List.nodup_dedup _, by decide, by decide, by decide⟩
  intro expr node name
  unfold mexFoundList
  rw [List.mem_dedup, List.mem_filter]
  unfold keepName
  simp [and_assoc]

/-- C6 counterexample: in the template-based variant of the controller
file (`src/unnamed/part_001`), the companion resource name is the
rendered caller-supplied template; with the action-free template `foo`
the name used for lookup and creation is `foo`, which does not even
contain the fixed suffix, for any backend identifier (e.g. `openstack`). -/
theorem claim_C6_counterexample :
    templateAbsencePrometheusRuleName "foo" = some "foo"
    ∧ goContains "foo" absencePromRuleNameSuffix = false
    ∧ "foo" ≠ AbsencePrometheusRuleName "openstack" := by
  exact ⟨by decide, by decide, by decide⟩

/-- C6 amended: the two concatenation-based name functions
(`AbsencePrometheusRuleName` of `controllers/absence_prometheusrule.go`
and `AbsentPrometheusRuleName` of the older variant) return the backend
identifier concatenated with the literal suffix
`-absent-metric-alert-rules`, bit for bit; the template-based variant
instead returns the rendered template (the template text itself whenever
the template contains no action delimiter), independent of any backend
identifier. -/
theorem claim_C6_theorem :
    (∀ promServer : String, AbsencePrometheusRuleName promServer
      = promServer ++ "-absent-metric-alert-rules")
    ∧ (∀ prometheusServer : String, AbsentPrometheusRuleName prometheusServer
      = prometheusServer ++ "-absent-metric-alert-rules")
    ∧ (∀ tmpl : String, goContains tmpl "\x7b\x7b" = false →
      templateAbsencePrometheusRuleName tmpl = some tmpl) := by
  refine ⟨fun _ => rfl, fun _ => rfl, fun tmpl h => ?_⟩
  unfold templateAbsencePrometheusRuleName
  rw [h]
  rfl

/-- Witness for C6's amended theorem at the template `bar-rules`. -/
theorem claim_C6_witness :
    goContains "bar-rules" "\x7b\x7b" = false
    ∧ templateAbsencePrometheusRuleName "bar-rules" = some "bar-rules" :=
  ⟨by decide, claim_C6_theorem.2.2 "bar-rules" (by decide)⟩

theorem parseGroupRules_error (pe : String → Except String PromExpr)
    (t s : String) : ∀ rs : List Rule,
    (∃ r ∈ rs, exceptIsError (pe r.expr) = true) →
    ∃ msg, parseGroupRules pe t s rs = .error msg := by
  intro rs
  induction rs with
  | nil => rintro ⟨r, hr, _⟩; simp at hr
  | cons r rest ih =>
    rintro ⟨r', hr', herr⟩
    rcases List.mem_cons.mp hr' with rfl | hr'
    · cases h : pe r'.expr with
      | error e =>
        refine ⟨"could not parse rule expression: " ++ e ++ ": " ++ r'.expr, ?_⟩
        simp only [parseGroupRules, parseAlertRule, h]
        rfl
      | ok node => rw [h] at herr; exact absurd herr (by simp [exceptIsError])
    · cases h₁ : parseAlertRule pe t s r with
      | error e => exact ⟨e, by simp only [parseGroupRules, h₁]; rfl⟩
      | ok rules =>
        rcases ih ⟨r', hr', herr⟩ with ⟨msg, hmsg⟩
        exact ⟨msg, by simp only [parseGroupRules, h₁, hmsg]; rfl⟩

/-- C2 counterexample: a rule-group sequence with one syntactically
invalid expression (`strange(`) and one valid one (`foo_bar > 0`):
`parseRuleGroups` returns the parse error, producing no absence rules for
the valid rule — while the same valid rule alone does generate one. The
caller `updateAbsenceAlertRules` (step 4) likewise returns this error,
aborting the whole pass. -/
theorem claim_C2_counterexample :
    parseRuleGroups peSample "myrule" "os" "svc"
        [⟨"g", [ruleBad, ruleGood]⟩]
      = .error "could not parse rule expression: parse error: strange("
    ∧ parseRuleGroups peSample "myrule" "os" "svc" [⟨"g", [ruleGood]⟩]
      = .ok [⟨"myrule/g", [mkAbsenceRule "net" "x" "foo_bar"]⟩] := by
  exact ⟨by rfl, by rfl⟩

/-- C2 amended: a parse failure for any one SourceRule is not isolated:
`parseRuleGroups` aborts with the (first) parse error, so the whole
SourceResource's synthesis produces no output and the reconciliation pass
for it stops; no absence rules are generated for the remaining valid
rules. -/
theorem claim_C2_theorem :
    ∀ (pe : String → Except String PromExpr)
      (promRuleName t s : String) (groups : List RuleGroup),
    (∃ g ∈ groups, ∃ r ∈ g.rules, exceptIsError (pe r.expr) = true) →
    ∃ msg, parseRuleGroups pe promRuleName t s groups = .error msg := by
  intro pe promRuleName t s groups
  induction groups with
  | nil => rintro ⟨g, hg, _⟩; simp at hg
  | cons g rest ih =>
    rintro ⟨g', hg', hexists⟩
    rcases List.mem_cons.mp hg' with rfl | hg'
    · rcases parseGroupRules_error pe t s g'.rules hexists with ⟨msg, hmsg⟩
      exact ⟨msg, by simp only [parseRuleGroups, hmsg]; rfl⟩
    · cases h₁ : parseGroupRules pe t s g.rules with
      | error e => exact ⟨e, by simp only [parseRuleGroups, h₁]; rfl⟩
      | ok rules =>
        rcases ih ⟨g', hg', hexists⟩ with ⟨msg, hmsg⟩
        refine ⟨msg, ?_⟩
        simp only [parseRuleGroups, h₁, hmsg]
        rfl

/-- Witness for C2's amended theorem at the concrete two-rule group. -/
theorem claim_C2_witness :
    (∃ g ∈ [RuleGroup.mk "g" [ruleBad, ruleGood]],
      ∃ r ∈ g.rules, exceptIsError (peSample r.expr) = true)
    ∧ ∃ msg, parseRuleGroups peSample "myrule" "os" "svc"
        [RuleGroup.mk "g" [ruleBad, ruleGood]] = .error msg :=
  ⟨by decide,
    claim_C2_theorem peSample "myrule" "os" "svc"
      [RuleGroup.mk "g" [ruleBad, ruleGood]] (by decide)⟩

/-- C1 counterexample: a companion whose group sequence is a fixed point
of the merge with the freshly synthesized groups (here the synthesized
sequence is empty, and merging with the empty sequence changes nothing),
yet `updateAbsenceAlertRules` issues a delete call: when synthesis
produces no groups, step 5 delegates to the orphan cleanup instead of the
structural-equality check, and the cleanup drops the `myrule/g` group and
deletes the then-empty companion. -/
theorem claim_C1_counterexample :
    parseRuleGroups peSample "myrule" "os" "svc" sgGuarded = .ok []
    ∧ exOrphan = mergeAbsenceRuleGroups exOrphan []
    ∧ updateAbsenceAlertRules peSample [("prometheus", "openstack")]
        "myrule" "os" "svc" (some exOrphan) sgGuarded = .cleanupDelete := by
  exact ⟨by rfl, by rfl, by rfl⟩

/-- C1 amended: when the freshly synthesized group sequence is non-empty,
an existing companion whose group sequence equals the merge of itself
with the synthesized groups yields a no-op — no create/update/delete call
is issued; when the synthesized sequence is empty, the pass delegates to
orphan cleanup, which is likewise a no-op provided no group of the
companion carries this source's name as its prefix. -/
theorem claim_C1_theorem :
    (∀ (pe : String → Except String PromExpr)
       (promRuleLabels : List (String × String))
       (promRuleName t s ps : String)
       (ex newGroups specGroups : List RuleGroup),
      lookup promRuleLabels "prometheus" = some ps →
      parseRuleGroups pe promRuleName t s specGroups = .ok newGroups →
      newGroups ≠ [] →
      ex = mergeAbsenceRuleGroups ex newGroups →
      updateAbsenceAlertRules pe promRuleLabels promRuleName t s
        (some ex) specGroups = .noop)
    ∧ (∀ (pe : String → Except String PromExpr)
       (promRuleLabels : List (String × String))
       (promRuleName t s ps : String) (ex specGroups : List RuleGroup),
      lookup promRuleLabels "prometheus" = some ps →
      parseRuleGroups pe promRuleName t s specGroups = .ok [] →
      (∀ g ∈ ex, ¬(promRulefromAbsenceRuleGroupName g.name ≠ ""
        ∧ promRulefromAbsenceRuleGroupName g.name = promRuleName)) →
      updateAbsenceAlertRules pe promRuleLabels promRuleName t s
        (some ex) specGroups = .noop) := by
  constructor
  · intro pe promRuleLabels promRuleName t s ps ex newGroups specGroups
      h1 h2 h3 h4
    unfold updateAbsenceAlertRules
    simp only [h1, h2]
    rw [if_neg h3]
    rw [if_pos h4]
  · intro pe promRuleLabels promRuleName t s ps ex specGroups h1 h2 h5
    have hdec : cleanUpOrphanedDecision promRuleName ex = .noop := by
      unfold cleanUpOrphanedDecision
      have hkept : ex.filter (fun g =>
          !(decide (promRulefromAbsenceRuleGroupName g.name ≠ ""
            ∧ promRulefromAbsenceRuleGroupName g.name = promRuleName))) = ex := by
        apply List.filter_eq_self.mpr
        intro g hg
        have := h5 g hg
        simp only [Bool.not_eq_true', decide_eq_false_iff_not]
        tauto
      simp only [hkept]
      simp
    unfold updateAbsenceAlertRules
    simp only [h1, h2, if_true]
    rw [hdec]

/-- Witness for C1's amended theorem: a steady-state second pass (the
companion already holds exactly the synthesized group) is a no-op, and so
is the cleanup-delegating empty-synthesis pass when the companion holds
only groups of another source. -/
theorem claim_C1_witness :
    updateAbsenceAlertRules peSample [("prometheus", "openstack")]
        "myrule" "net" "x"
        (some [⟨"myrule/g", [mkAbsenceRule "net" "x" "foo_bar"]⟩])
        [⟨"g", [ruleGood]⟩] = .noop
    ∧ updateAbsenceAlertRules peSample [("prometheus", "openstack")]
        "myrule" "os" "svc" (some [gA]) sgGuarded = .noop :=
  ⟨claim_C1_theorem.1 peSample [("prometheus", "openstack")]
      "myrule" "net" "x" "openstack"
      [⟨"myrule/g", [mkAbsenceRule "net" "x" "foo_bar"]⟩]
      [⟨"myrule/g", [mkAbsenceRule "net" "x" "foo_bar"]⟩]
      [⟨"g", [ruleGood]⟩]
      (by rfl) (by rfl) (by decide) (by rfl),
    claim_C1_theorem.2 peSample [("prometheus", "openstack")]
      "myrule" "os" "svc" "openstack" [gA] sgGuarded
      (by rfl) (by rfl) (by decide)⟩

theorem cleanUpOrphanedDecision_eq (promRuleName : String)
    (groups : List RuleGroup) (h : promRuleName ≠ "") :
    cleanUpOrphanedDecision promRuleName groups =
      (let kept := groups.filter
        (fun g => promRulefromAbsenceRuleGroupName g.name ≠ promRuleName)
      if kept = groups then .noop
      else if kept = [] then .delete
      else .update kept) := by
  unfold cleanUpOrphanedDecision
  have hf : groups.filter (fun g =>
      let n := promRulefromAbsenceRuleGroupName g.name
      !(n ≠ "" ∧ n = promRuleName)) =
    groups.filter
      (fun g => promRulefromAbsenceRuleGroupName g.name ≠ promRuleName) := by
    apply List.filter_congr
    intro g _
    by_cases hc : promRulefromAbsenceRuleGroupName g.name = promRuleName
    · simp [hc, h]
    · simp [hc]
  simp only [hf]

/-- C7: cleaning up after a deleted or disabled source named
`promRuleName` (source names are non-empty) keeps exactly the groups
whose name prefix before the `/` separator differs from the source's
name; if that dropped something and no group remains, the companion
resource is deleted rather than left empty, if groups remain it is
updated in place, and if nothing matched no write is issued. In
particular, when the source's groups are the companion's sole contents,
the companion is deleted. -/
theorem claim_C7_theorem :
    (∀ (promRuleName : String) (groups : List RuleGroup),
      promRuleName ≠ "" →
      cleanUpOrphanedDecision promRuleName groups =
        (let kept := groups.filter
          (fun g => promRulefromAbsenceRuleGroupName g.name ≠ promRuleName)
        if kept = groups then .noop
        else if kept = [] then .delete
        else .update kept))
    ∧ (∀ (promRuleName : String) (groups : List RuleGroup),
      promRuleName ≠ "" → groups ≠ [] →
      (∀ g ∈ groups, promRulefromAbsenceRuleGroupName g.name = promRuleName) →
      cleanUpOrphanedDecision promRuleName groups = .delete) := by
  refine ⟨fun n gs h => cleanUpOrphanedDecision_eq n gs h, ?_⟩
  intro n gs h hne hall
  rw [cleanUpOrphanedDecision_eq n gs h]
  have hkept : gs.filter
      (fun g => promRulefromAbsenceRuleGroupName g.name ≠ n) = [] := by
    apply List.filter_eq_nil_iff.mpr
    intro g hg
    simp [hall g hg]
  simp only [hkept]
  rw [if_neg (fun hh : ([] : List RuleGroup) = gs => hne hh.symm)]
  simp

/-- Witness for C7: a mixed companion state, and the sole-contents state
that leads to deletion. -/
theorem claim_C7_witness :
    (cleanUpOrphanedDecision "myrule" [gA, gB] =
      (let kept := [gA, gB].filter
        (fun g => promRulefromAbsenceRuleGroupName g.name ≠ "myrule")
      if kept = [gA, gB] then .noop
      else if kept = [] then .delete
      else .update kept))
    ∧ cleanUpOrphanedDecision "myrule" exOrphan = .delete :=
  ⟨claim_C7_theorem.1 "myrule" [gA, gB] (by decide),
    claim_C7_theorem.2 "myrule" exOrphan (by decide) (by decide) (by decide)⟩

/-- C8: every generated absence rule carries exactly the labels
`tier`/`service` resolved by carry-over — the rule's own literal value
when it is defined and does not contain the templating marker `$labels`,
the supplied default otherwise — and `severity` fixed to `info`. On the
spec's samples, literal `tier=storage` is kept regardless of the defaults
and templated `tier=$labels.tier` falls back to the default `os`. -/
theorem claim_C8_theorem :
    (∀ (pe : String → Except String PromExpr) (tier service : String)
       (r : Rule) (out : List Rule) (rule : Rule),
      parseAlertRule pe tier service r = .ok out → rule ∈ out →
      rule.labels =
        [("tier", carryOverLabel r.labels "tier" tier),
         ("service", carryOverLabel r.labels "service" service),
         ("severity", "info")])
    ∧ parseAlertRule peSample "os" "svc" ruleStorage
      = .ok [mkAbsenceRule "storage" "x" "foo_bar"]
    ∧ parseAlertRule peSample "os" "svc" ruleTemplated
      = .ok [mkAbsenceRule "os" "x" "foo_bar"] := by
  refine ⟨?_, by rfl, by rfl⟩
  intro pe tier service r out rule hok hmem
  unfold parseAlertRule at hok
  cases hpe : pe r.expr with
  | error e => rw [hpe] at hok; exact absurd hok (by simp)
  | ok node =>
    rw [hpe] at hok
    dsimp only [] at hok
    by_cases hf : mexFoundList r.expr node = []
    · rw [if_pos hf] at hok
      injection hok with hout
      rw [← hout] at hmem
      simp at hmem
    · rw [if_neg hf] at hok
      injection hok with hout
      rw [← hout] at hmem
      unfold absenceRulesFor at hmem
      rcases List.mem_map.mp hmem with ⟨m, _, rfl⟩
      rfl

/-- Witness for C8 at the end-to-end sample rule. -/
theorem claim_C8_witness :
    (mkAbsenceRule "net" "x" "foo_bar").labels =
      [("tier", carryOverLabel ruleGood.labels "tier" "os"),
       ("service", carryOverLabel ruleGood.labels "service" "svc"),
       ("severity", "info")] :=
  claim_C8_theorem.1 peSample "os" "svc" ruleGood
    [mkAbsenceRule "net" "x" "foo_bar"] (mkAbsenceRule "net" "x" "foo_bar")
    (by rfl) (by decide)

/-- C9 counterexample: in `controllers/absence_prometheusrule.go`, a
source resource without the `prometheus` label makes
`updateAbsenceAlertRules` fail with an error — reconciliation does not
proceed with a fallback identifier there. -/
theorem claim_C9_counterexample :
    updateAbsenceAlertRules peSample [] "myrule" "os" "svc" none []
      = .failed "no 'prometheus' label found" := by rfl

/-- C9 amended: the two controller variants disagree. The variant in
`src/unnamed/part_001` tolerates a missing backend-identifier label and
proceeds with the fallback identifier `default-prometheus`; the variant
in `controllers/absence_prometheusrule.go` instead fails the pass with
the error `no 'prometheus' label found`. -/
theorem claim_C9_theorem :
    (∀ promRuleLabels : List (String × String),
      lookup promRuleLabels "prometheus" = none →
      resolvePromServerWithFallback promRuleLabels = "default-prometheus")
    ∧ (∀ (pe : String → Except String PromExpr)
       (promRuleLabels : List (String × String)) (promRuleName t s : String)
       (existing : Option (List RuleGroup)) (specGroups : List RuleGroup),
      lookup promRuleLabels "prometheus" = none →
      updateAbsenceAlertRules pe promRuleLabels promRuleName t s
        existing specGroups = .failed "no 'prometheus' label found") := by
  constructor
  · intro labels h
    unfold resolvePromServerWithFallback
    rw [h]
  · intro pe labels promRuleName t s existing specGroups h
    unfold updateAbsenceAlertRules
    rw [h]

/-- Witness for C9's amended theorem at a label set without
`prometheus`. -/
theorem claim_C9_witness :
    resolvePromServerWithFallback [("tier", "os")] = "default-prometheus"
    ∧ updateAbsenceAlertRules peSample [("tier", "os")] "myrule" "os" "svc"
        none [] = .failed "no 'prometheus' label found" :=
  ⟨claim_C9_theorem.1 [("tier", "os")] (by decide),
    claim_C9_theorem.2 peSample [("tier", "os")] "myrule" "os" "svc"
      none [] (by decide)⟩

/-- C10 counterexample: the synthesizer emits one rule per key of the
extracted-metric map, ranging over a Go map whose iteration order the
language leaves unspecified; for the expression
`a_one > 0 or b_two > 0` both `[a_one, b_two]` and `[b_two, a_one]` are
enumerations of the extracted set, and they yield structurally different
rule sequences, so two invocations need not order the generated rules of
a group identically. -/
theorem claim_C10_counterexample :
    List.Perm ["a_one", "b_two"]
      (mexFoundList "a_one > 0 or b_two > 0"
        (.binary "or" (.binary ">" (.vector "a_one") (.number 0))
          (.binary ">" (.vector "b_two") (.number 0))))
    ∧ List.Perm ["b_two", "a_one"]
      (mexFoundList "a_one > 0 or b_two > 0"
        (.binary "or" (.binary ">" (.vector "a_one") (.number 0))
          (.binary ">" (.vector "b_two") (.number 0))))
    ∧ absenceRulesFor "os" "svc" ["a_one", "b_two"]
      ≠ absenceRulesFor "os" "svc" ["b_two", "a_one"] := by
  exact ⟨by decide, by decide, by decide⟩

/-- C10 amended: synthesis is deterministic up to the enumeration order
of the extracted metric set: for a fixed enumeration the output is fixed,
and any two enumerations of the same set yield permutations of the same
generated rules — the rule multiset is determined, the sequence order
within a group is not. -/
theorem claim_C10_theorem :
    ∀ (tier service : String) (found₁ found₂ : List String),
      found₁.Perm found₂ →
      (absenceRulesFor tier service found₁).Perm
        (absenceRulesFor tier service found₂) := by
  intro tier service found₁ found₂ h
  exact h.map (mkAbsenceRule tier service)

/-- Witness for C10's amended theorem at the two-metric enumerations. -/
theorem claim_C10_witness :
    (absenceRulesFor "os" "svc" ["a_one", "b_two"]).Perm
      (absenceRulesFor "os" "svc" ["b_two", "a_one"]) :=
  claim_C10_theorem "os" "svc" ["a_one", "b_two"] ["b_two", "a_one"]
    (by decide)

end AbsentMetrics

